import Mathlib

/-!
Verification of the moderation/privilege Discord bot against its
natural-language specification.  Shallow embedding: each Python function
that a claim depends on is transcribed as an executable Lean definition
over `String` / `List Char`, and the claims are settled as theorems
about those definitions.

Modelling conventions, stated once:
* Python strings are modelled as Lean `String` (a list of `Char`);
  case mapping (`str.lower`) is modelled on the ASCII range, which is
  the only range the claims' inputs exercise.
* Python `re` functions are transcribed by hand-rolled deterministic
  matchers that follow the engine's leftmost-match / greedy semantics
  for the specific pattern in the source, including the fact that `$`
  matches both at end-of-string and immediately before a single
  trailing newline.  Python `\d` additionally matches non-ASCII Unicode
  decimal digits; the embedding uses ASCII digits, on which all claim
  inputs live.
* `async` control flow is sequential in the source at the granularity
  the claims discuss, so every flow is embedded as a pure function from
  its external inputs (RCON answers, database lookup results) to a
  record of the local side effects it performs.
-/

namespace Bot

/-! ## Character and string helpers (Python semantics, ASCII range) -/

/-- Python `\s` on the ASCII range: space, tab, newline, carriage return,
form feed, vertical tab. -/
def isPySpace (c : Char) : Bool :=
  c = ' ' || c = '\t' || c = '\n' || c = '\r' || c.toNat = 12 || c.toNat = 11

/-- Python `\d` (ASCII range): decimal digits `0`-`9`. -/
def isPyDigit (c : Char) : Bool := c.isDigit

/-- Regex character class `[A-Za-z]`. -/
def isAsciiLetter (c : Char) : Bool := c.isAlpha

/-- Regex character class `[A-Za-z0-9_\-]` used for group names. -/
def isNameChar (c : Char) : Bool :=
  c.isAlpha || c.isDigit || c = '_' || c = '-'

/-- Python `str.lower` (ASCII range). -/
def pyLower (l : List Char) : List Char := l.map Char.toLower

/-- Python `str.strip()` (both ends, whitespace). -/
def pyStrip (l : List Char) : List Char :=
  (((l.dropWhile isPySpace).reverse).dropWhile isPySpace).reverse

/-- Python substring test `needle in haystack`. -/
def hasSubstr (hay needle : List Char) : Bool :=
  if needle.isPrefixOf hay then true
  else
    match hay with
    | [] => false
    | _ :: t => hasSubstr t needle

/-- Case-insensitive literal match: consume `pat` (given lower-case)
from the front of `l`, comparing lower-cased; return the rest. -/
def matchCI (pat : List Char) (l : List Char) : Option (List Char) :=
  match pat, l with
  | [], rest => some rest
  | _, [] => none
  | p :: ps, c :: cs => if c.toLower = p then matchCI ps cs else none

/-- Python `str.split('\n')`. -/
def splitNl (l : List Char) : List (List Char) :=
  match l with
  | [] => [[]]
  | c :: t =>
    let r := splitNl t
    if c = '\n' then [] :: r
    else
      match r with
      | [] => [[c]]
      | h :: rt => (c :: h) :: rt

/-- Digits of a string read as a natural number (the regex guarantees
the argument is all decimal digits when this is applied). -/
def digitsToNat (l : List Char) : Nat :=
  l.foldl (fun a c => a * 10 + (c.toNat - 48)) 0

/-! ## `config/config.py` — constants the claims depend on (defaults) -/

/-- `GROUP_NAME_DATABASE` default:
`'moderator,moder,adminl1,admin,owner,helper'.split(',')`. -/
def GROUP_NAME_DATABASE : List String :=
  ["moderator", "moder", "adminl1", "admin", "owner", "helper"]

/-- `GROUP_HIERARCHY` default:
`'owner,admin,adminl1,moderator,moder,helper'.split(',')`. -/
def GROUP_HIERARCHY : List String :=
  ["owner", "admin", "adminl1", "moderator", "moder", "helper"]

/-- `PUNISHMENT_LIMITS['recruitment']` default. -/
def PUNISHMENT_LIMIT_RECRUITMENT : Nat := 3

/-- `PUNISHMENT_LIMITS['donat']` default. -/
def PUNISHMENT_LIMIT_DONAT : Nat := 2

/-- `MAX_REMOVAL_RETRIES` default. -/
def MAX_REMOVAL_RETRIES : Nat := 3

/-! ## `src/commands/privilege.py` — `is_valid_steamid64` -/

/-- `is_valid_steamid64(steamid)`:
`bool(re.match(r'^\d{17}$', steamid))`.

Python's `$` matches at end of string and also immediately before a
single newline at the end of the string, so the regex accepts exactly:
17 digits, or 17 digits followed by one trailing `'\n'`. -/
def is_valid_steamid64 (steamid : String) : Bool :=
  let d := steamid.data
  (d.length = 17 && d.all isPyDigit) ||
    (d.length = 18 && (d.take 17).all isPyDigit && d.getLast? = some '\n')

/-! ## `src/rcon/webrcon_client.py` — candidate port list -/

/-- `dict.fromkeys` de-duplication: keep the first occurrence of each
element, preserving order. -/
def dedupFirstAux (seen : List Int) : List Int → List Int
  | [] => []
  | x :: t =>
    if seen.contains x then dedupFirstAux seen t
    else x :: dedupFirstAux (x :: seen) t

/-- Entry point of the de-duplication with an empty seen set. -/
def dedupFirst (l : List Int) : List Int := dedupFirstAux [] l

/-- `WebRCONClient.__init__` port candidates:
`[port, port - 2, port + 2, port - 10, port + 10]`, filtered by
`0 < p < 65536`, de-duplicated keeping first occurrences; with
`try_ports=False` just `[port]`. -/
def ports_to_try (try_ports : Bool) (port : Int) : List Int :=
  if try_ports then
    dedupFirst (([port, port - 2, port + 2, port - 10, port + 10]).filter
      (fun p => 0 < p && p < 65536))
  else [port]

/-! ## `src/utils/parsers.py` — `remove_color_tags` -/

/-- One left-to-right pass of `re.sub(r'<color=[^>]*>', '', text)`:
at each position, if the text starts `<color=` (case-sensitive, as
`re.sub` is) followed by a (possibly empty) run of non-`>` characters
and a `>`, delete through that `>`; otherwise keep the character.
Fuel-driven so the kernel can evaluate it; `fuel = length` always
suffices because every step consumes at least one character. -/
def subColorOpen : Nat → List Char → List Char
  | 0, l => l
  | _ + 1, [] => []
  | fuel + 1, c :: t =>
    if ("<color=".data).isPrefixOf (c :: t) then
      let rest := (c :: t).drop 7
      let body := rest.dropWhile (fun x => x ≠ '>')
      match body with
      | '>' :: after => subColorOpen fuel after
      | _ => c :: subColorOpen fuel t
    else c :: subColorOpen fuel t

/-- One pass of `re.sub(r'</color>', '', text)` (exact-case literal). -/
def subColorClose : Nat → List Char → List Char
  | 0, l => l
  | _ + 1, [] => []
  | fuel + 1, c :: t =>
    if ("</color>".data).isPrefixOf (c :: t) then
      subColorClose fuel ((c :: t).drop 8)
    else c :: subColorClose fuel t

/-- One pass of `re.sub(r'<[^>]+>', '', text)`: `<`, one or more
non-`>` characters, `>`. -/
def subAnyTag : Nat → List Char → List Char
  | 0, l => l
  | _ + 1, [] => []
  | fuel + 1, c :: t =>
    if c = '<' then
      let body := t.takeWhile (fun x => x ≠ '>')
      let rest := t.dropWhile (fun x => x ≠ '>')
      match body, rest with
      | _ :: _, '>' :: after => subAnyTag fuel after
      | _, _ => c :: subAnyTag fuel t
    else c :: subAnyTag fuel t

/-- `remove_color_tags(text)`: the three substitutions in source order,
then `.strip()`. -/
def remove_color_tags (text : String) : String :=
  let l1 := subColorOpen text.data.length text.data
  let l2 := subColorClose l1.length l1
  let l3 := subAnyTag l2.length l2
  ⟨pyStrip l3⟩

/-! ## `src/utils/time_utils.py` — `parse_utc_datetime` -/

/-- Python `str.split(c)` for a single-character separator. -/
def splitOnChar (sep : Char) (l : List Char) : List (List Char) :=
  match l with
  | [] => [[]]
  | c :: t =>
    let r := splitOnChar sep t
    if c = sep then [] :: r
    else
      match r with
      | [] => [[c]]
      | h :: rt => (c :: h) :: rt

/-- Python `int(s)` on the inputs this program feeds it: optional
surrounding whitespace, optional sign, then one or more ASCII decimal
digits (Python also accepts underscore separators and Unicode digits;
no input here contains either). -/
def pyIntParse (l : List Char) : Option Int :=
  let s := pyStrip l
  let core : List Char → Option Int := fun d =>
    if d ≠ [] && d.all isPyDigit then some (Int.ofNat (digitsToNat d)) else none
  match s with
  | '-' :: t => (core t).map (fun n => -n)
  | '+' :: t => core t
  | _ => core s

/-- Gregorian leap year, as `datetime` uses. -/
def isLeapYear (y : Nat) : Bool :=
  y % 4 = 0 && (y % 100 ≠ 0 || y % 400 = 0)

/-- Days in a month, as `datetime` validates them. -/
def daysInMonth (y m : Nat) : Nat :=
  if m = 2 then (if isLeapYear y then 29 else 28)
  else if m = 4 || m = 6 || m = 9 || m = 11 then 30
  else 31

/-- The bounds `datetime(year, month, day, hour, minute)` enforces
(raising `ValueError`, which the source catches and turns into `None`). -/
def datetimeValid (year month day hour minute : Int) : Bool :=
  1 ≤ year && year ≤ 9999 && 1 ≤ month && month ≤ 12 &&
    1 ≤ day && day ≤ Int.ofNat (daysInMonth year.toNat month.toNat) &&
    0 ≤ hour && hour ≤ 23 && 0 ≤ minute && minute ≤ 59

/-- A UTC instant at minute precision, the value `datetime(...)` holds. -/
structure UtcTime where
  year : Nat
  month : Nat
  day : Nat
  hour : Nat
  minute : Nat
deriving DecidableEq, Repr

/-- `month_map` of `parse_utc_datetime`. -/
def monthFromName (name : List Char) : Option Nat :=
  let n : String := ⟨name⟩
  if n = "january" || n = "jan" then some 1
  else if n = "february" || n = "feb" then some 2
  else if n = "march" || n = "mar" then some 3
  else if n = "april" || n = "apr" then some 4
  else if n = "may" then some 5
  else if n = "june" || n = "jun" then some 6
  else if n = "july" || n = "jul" then some 7
  else if n = "august" || n = "aug" then some 8
  else if n = "september" || n = "sep" || n = "sept" then some 9
  else if n = "october" || n = "oct" then some 10
  else if n = "november" || n = "nov" then some 11
  else if n = "december" || n = "dec" then some 12
  else none

/-- `parse_utc_datetime(date_str, time_str, month_name, day, year)`:
month-name lookup on the lower-cased name (`None` on a miss),
`hour, minute = map(int, time_str.split(':'))` (`ValueError` → `None`
when the split is not exactly two integer pieces), then
`datetime(year, month, day, hour, minute, tzinfo=utc)` with its
`ValueError` caught as `None`.  `date_str` (the weekday) is unused. -/
def parse_utc_datetime (date_str : String) (time_str : String)
    (month_name : String) (day : Int) (year : Int) : Option UtcTime :=
  let _ := date_str
  match monthFromName (pyLower month_name.data) with
  | none => none
  | some month =>
    match splitOnChar ':' time_str.data with
    | [h, m] =>
      match pyIntParse h, pyIntParse m with
      | some hour, some minute =>
        if datetimeValid year (Int.ofNat month) day hour minute then
          some ⟨year.toNat, month, day.toNat, hour.toNat, minute.toNat⟩
        else none
      | _, _ => none
    | _ => none

/-! ## `src/utils/parsers.py` — `parse_pinfo_response` -/

/-- One parsed group entry of `parse_pinfo_response`. -/
structure PInfoGroup where
  name : String
  expires_at_utc : Option UtcTime
  permanent : Bool
deriving DecidableEq, Repr

/-- The dictionary `parse_pinfo_response` returns. -/
structure PInfoResult where
  has_privileges : Bool
  groups : List PInfoGroup
  raw_response : String
deriving DecidableEq, Repr

/-- The capture groups of one match of the timed-group regex. -/
structure TimedMatch where
  name : List Char
  day_of_week : List Char
  day : Nat
  month_name : List Char
  year : Nat
  time_str : List Char
deriving DecidableEq, Repr

/-- `\s+`: require at least one whitespace character, consume the
whole greedy run (the following pattern pieces never match
whitespace, so the greedy run never has to backtrack). -/
def reqSpaces (l : List Char) : Option (List Char) :=
  match l with
  | c :: t => if isPySpace c then some (t.dropWhile isPySpace) else none
  | [] => none

/-- `(\d{1,2})\s+` with the engine's greedy-then-backtrack order:
try two digits then mandatory whitespace, else one digit then
mandatory whitespace. -/
def matchDay12 (l : List Char) : Option (Nat × List Char) :=
  match l with
  | a :: b :: rest =>
    if isPyDigit a && isPyDigit b then
      match reqSpaces rest with
      | some r => some (digitsToNat [a, b], r)
      | none =>
        match reqSpaces (b :: rest) with
        | some r => some (digitsToNat [a], r)
        | none => none
    else if isPyDigit a then
      match reqSpaces (b :: rest) with
      | some r => some (digitsToNat [a], r)
      | none => none
    else none
  | _ => none

/-- The body of the timed-group pattern after the optional
`Groups?:\s*` prefix:
`([A-Za-z0-9_\-]+)\s+until\s+([A-Za-z]+),\s+(\d{1,2})\s+([A-Za-z]+)\s+(\d{4})\s+(\d{2}:\d{2})\s+UTC`
with `re.IGNORECASE` (literals matched case-insensitively). -/
def pinfoCore (l : List Char) : Option (TimedMatch × List Char) :=
  let name := l.takeWhile isNameChar
  if name = [] then none else
  match reqSpaces (l.dropWhile isNameChar) with
  | none => none
  | some l3 =>
  match matchCI "until".data l3 with
  | none => none
  | some l4 =>
  match reqSpaces l4 with
  | none => none
  | some l5 =>
  let dow := l5.takeWhile isAsciiLetter
  if dow = [] then none else
  match l5.dropWhile isAsciiLetter with
  | ',' :: l7 =>
    match reqSpaces l7 with
    | none => none
    | some l8 =>
    match matchDay12 l8 with
    | none => none
    | some (day, l9) =>
    let mon := l9.takeWhile isAsciiLetter
    if mon = [] then none else
    match reqSpaces (l9.dropWhile isAsciiLetter) with
    | none => none
    | some l10 =>
    match l10 with
    | y1 :: y2 :: y3 :: y4 :: l11 =>
      if (([y1, y2, y3, y4]).all isPyDigit) then
        match reqSpaces l11 with
        | none => none
        | some l12 =>
        match l12 with
        | h1 :: h2 :: ':' :: m1 :: m2 :: l13 =>
          if (([h1, h2, m1, m2]).all isPyDigit) then
            match reqSpaces l13 with
            | none => none
            | some l14 =>
            match matchCI "utc".data l14 with
            | none => none
            | some rest =>
              some (⟨name, dow, day, mon, digitsToNat [y1, y2, y3, y4],
                [h1, h2, ':', m1, m2]⟩, rest)
          else none
        | _ => none
      else none
    | _ => none
  | _ => none

/-- One attempt of the full timed-group pattern at a fixed position:
the optional `(?:Groups?:\s*)?` prefix is tried greedily first, and —
matching the engine's backtracking — dropped when the rest of the
pattern fails after it. -/
def matchPinfoAt (l : List Char) : Option (TimedMatch × List Char) :=
  let afterPref : Option (List Char) :=
    match matchCI "group".data l with
    | none => none
    | some r1 =>
      match r1 with
      | c :: t =>
        if c.toLower = 's' then
          match t with
          | ':' :: t2 => some (t2.dropWhile isPySpace)
          | _ => none
        else if c = ':' then some (t.dropWhile isPySpace)
        else none
      | [] => none
  match afterPref with
  | some l1 =>
    match pinfoCore l1 with
    | some r => some r
    | none => pinfoCore l
  | none => pinfoCore l

/-- `re.finditer` scan: leftmost matches, non-overlapping, resuming
after each match.  Every step consumes at least one character, so
`fuel = length` suffices. -/
def findTimed : Nat → List Char → List TimedMatch
  | 0, _ => []
  | _ + 1, [] => []
  | fuel + 1, c :: t =>
    match matchPinfoAt (c :: t) with
    | some (m, rest) => m :: findTimed fuel rest
    | none => findTimed fuel t

/-- The timed-group entries: each regex match whose date parses becomes
a non-permanent group; unparseable dates are logged and dropped. -/
def timedGroups (clean : List Char) : List PInfoGroup :=
  (findTimed clean.length clean).filterMap (fun m =>
    match parse_utc_datetime ⟨m.day_of_week⟩ ⟨m.time_str⟩ ⟨m.month_name⟩
        (Int.ofNat m.day) (Int.ofNat m.year) with
    | some dt => some ⟨⟨m.name⟩, some dt, false⟩
    | none => none)

/-- Case-insensitive string equality as the source writes it:
`a.lower() == b.lower()`. -/
def lowerEq (a b : String) : Bool := pyLower a.data == pyLower b.data

/-- The permanent-group scan of `parse_pinfo_response`: every stripped
line that is not empty, does not contain `until` (lower-cased test),
consists solely of name characters (`^([A-Za-z0-9_\-]+)$`), names a
configured known group (case-insensitive), and is not already captured
(case-insensitive) is appended as a permanent group. -/
def permScan (db : List String) (lines : List (List Char))
    (groups : List PInfoGroup) : List PInfoGroup :=
  lines.foldl (fun acc line =>
    let line := pyStrip line
    if line.isEmpty then acc
    else if hasSubstr (pyLower line) "until".data then acc
    else if line.all isNameChar then
      let gname : String := ⟨line⟩
      if db.any (fun d => lowerEq gname d) &&
          !(acc.any (fun g => lowerEq g.name gname)) then
        acc ++ [⟨gname, none, true⟩]
      else acc
    else acc) groups

/-- `parse_pinfo_response(response)` (the configured
`GROUP_NAME_DATABASE` is passed explicitly as `db`): empty input or a
recognized "no player" phrase short-circuits to no privileges;
otherwise the timed-group regex scan runs over the color-stripped
text, then the permanent-group line scan, and `has_privileges` is
`len(groups) > 0`.  Note the source's two phrase tests verbatim: the
first is case-sensitive on the cleaned text, the second looks for the
mixed-case `'No player found'` inside the *lower-cased* text. -/
def parse_pinfo_response (db : List String) (response : String) : PInfoResult :=
  if response.data.isEmpty then ⟨false, [], response⟩
  else
    let clean := remove_color_tags response
    if hasSubstr clean.data "There is no info about this player".data ||
        hasSubstr (pyLower clean.data) "No player found".data then
      ⟨false, [], response⟩
    else
      let groups := permScan db (splitNl clean.data) (timedGroups clean.data)
      ⟨!groups.isEmpty, groups, response⟩

/-! ## `src/utils/parsers.py` — `select_highest_group` -/

/-- `select_highest_group(groups)` with the configured allow-list `db`
(`GROUP_NAME_DATABASE`) and rank order `hier` (`GROUP_HIERARCHY`)
passed explicitly: filter to allow-listed names (case-insensitive),
then a fold that keeps the first group attaining the smallest index of
its lower-cased name in `hier` (`list.index`; a `ValueError` — name not
in `hier` — skips the group), starting from the sentinel
`len(GROUP_HIERARCHY)`. -/
def pyIndex (l : List String) (x : String) : Option Nat :=
  match l with
  | [] => none
  | h :: t => if h = x then some 0 else (pyIndex t x).map (· + 1)

/-- The index of a group's lower-cased name in the hierarchy list,
`GROUP_HIERARCHY.index(group['name'].lower())` (`none` = `ValueError`). -/
def hierIdx (hier : List String) (g : PInfoGroup) : Option Nat :=
  pyIndex hier ⟨pyLower g.name.data⟩

/-- The allow-list test of `select_highest_group`:
`any(g['name'].lower() == db_group.lower() for db_group in GROUP_NAME_DATABASE)`. -/
def groupAllowed (db : List String) (g : PInfoGroup) : Bool :=
  db.any (fun d => lowerEq g.name d)

/-- One step of the selection loop of `select_highest_group`. -/
def selStep (hier : List String) (acc : Option PInfoGroup × Nat)
    (g : PInfoGroup) : Option PInfoGroup × Nat :=
  match hierIdx hier g with
  | none => acc
  | some p => if p < acc.2 then (some g, p) else acc

/-- `select_highest_group(groups)` itself. -/
def select_highest_group (db hier : List String) (groups : List PInfoGroup) :
    Option PInfoGroup :=
  if groups.isEmpty then none
  else
    let valid := groups.filter (groupAllowed db)
    if valid.isEmpty then none
    else
      (valid.foldl (selStep hier) ((none : Option PInfoGroup), hier.length)).1

/-- The specification's reading of `select_highest_group`, written from
the spec's words for the refinement comparison: among the allow-listed
groups, the lowest hierarchy index wins, ties and equal indexes
resolved by first occurrence, absent when no group is in both lists. -/
def minHierIdx (hier : List String) (b : Nat) (l : List PInfoGroup) : Nat :=
  l.foldl (fun a g =>
    match hierIdx hier g with
    | some k => Nat.min a k
    | none => a) b

/-- Spec-side selection: first allow-listed group attaining the least
hierarchy index (the sentinel `hier.length` is never an index, so this
is `none` exactly when no allow-listed group is ranked). -/
def spec_select_highest_group (db hier : List String)
    (groups : List PInfoGroup) : Option PInfoGroup :=
  let valid := groups.filter (groupAllowed db)
  let m := minHierIdx hier hier.length valid
  valid.find? (fun g => hierIdx hier g == some m)

/-! ## `src/utils/parsers.py` — `parse_removegroup_response` -/

/-- The `success_phrases` list, verbatim (`\x27` is the apostrophe). -/
def removegroup_success_phrases : List String :=
  ["вы успешно исключили игрока",
   "removed from group",
   "removed",
   "config saved",
   "player \x27 removed from group",
   "successfully removed",
   "group removed"]

/-- `parse_removegroup_response(response)`: `False` on absent/empty
input, else `True` iff the color-stripped, lower-cased text contains
any success phrase. -/
def parse_removegroup_response (response : String) : Bool :=
  if response.data.isEmpty then false
  else
    let clean := pyLower (remove_color_tags response).data
    removegroup_success_phrases.any (fun p => hasSubstr clean p.data)

/-! ## `src/commands/warn.py` — the `warn` command's counting slice -/

/-- A `warnings` table row (the columns the command writes/reads). -/
structure WarningRow where
  discord_id : Nat
  executor_id : Nat
  reason : String
  category : Nat
deriving DecidableEq, Repr

/-- The warnings table. -/
structure WarnDb where
  warnings : List WarningRow
deriving DecidableEq, Repr

/-- `get_user_category(user)`: always returns `0` (recruitment track);
the donor distinction is an unwired hook. -/
def get_user_category (_user : Nat) : Nat := 0

/-- `Database.create_warning`: inserts one row. -/
def create_warning (db : WarnDb) (discord_id executor_id : Nat)
    (reason : String) (category : Nat) : WarnDb :=
  ⟨db.warnings ++ [⟨discord_id, executor_id, reason, category⟩]⟩

/-- `Database.get_warnings_count` with a category filter:
`COUNT(*) WHERE discord_id = %s AND category = %s`. -/
def get_warnings_count (db : WarnDb) (discord_id category : Nat) : Nat :=
  (db.warnings.filter
    (fun w => w.discord_id = discord_id && w.category = category)).length

/-- Outcome of the `warn` command slice the claim is about. -/
structure WarnOutcome where
  db : WarnDb
  warnings_count : Nat
  revocation_initiated : Bool
deriving DecidableEq, Repr

/-- The `warn` command body (counting and threshold slice): determine
the category and its limit, insert the warning, re-count for that user
and category, and initiate the revocation flow iff
`warnings_count >= limit`. -/
def warn (limit_recruitment limit_donat : Nat) (db : WarnDb)
    (target executor : Nat) (reason : String) : WarnOutcome :=
  let category := get_user_category target
  let limit := if category = 0 then limit_recruitment else limit_donat
  let db2 := create_warning db target executor reason category
  let cnt := get_warnings_count db2 target category
  ⟨db2, cnt, decide (cnt ≥ limit)⟩

/-! ## `src/commands/warn.py` — `_remove_privileges_for_warnings` -/

/-- The active-privilege row the flow reads
(`get_privilege_by_discord`). -/
structure PrivilegeRow where
  id : Nat
  discord_id : Nat
  steamid : String
  group_name : String
  expires_at_utc : Option UtcTime
  permanent : Bool
deriving DecidableEq, Repr

/-- External inputs of one execution of the revocation flow.  These
are the only external data the function can consume: the module never
binds the name `asyncio` (the `import asyncio` on line 231 is local to
`setup()`), so `await asyncio.sleep(2)` on line 157 raises `NameError`
on every path that passes the heuristic check — the `pinfo` re-query
is never issued and nothing after line 157 ever runs. -/
structure RemovalEnv where
  /-- `db.get_privilege_by_discord(user.id)`. -/
  privilege : Option PrivilegeRow
  /-- Answer to `removegroup <steamid> <group>` (`None` = no answer). -/
  removegroup_response : Option String

/-- The local side effects one execution performs (or provably does
not). -/
structure RemovalEffects where
  /-- Admin-channel error: no RCON answer to `removegroup`. -/
  rcon_error_logged : Bool
  /-- Admin-channel warning: heuristic did not confirm success. -/
  heuristic_failure_logged : Bool
  /-- Admin-channel error from the `except Exception` handler
  (line 210), reached via the `NameError` at line 157. -/
  exception_logged : Bool
  /-- The follow-up `pinfo` re-query was issued. -/
  pinfo_checked : Bool
  /-- Admin-channel warning: group still present after `removegroup`. -/
  group_still_present_logged : Bool
  /-- The mapped chat-platform role was removed. -/
  role_removed : Bool
  /-- `delete_privileges_by_discord` ran. -/
  privileges_deleted : Bool
  /-- `delete_warnings_by_discord` ran. -/
  warnings_deleted : Bool
  /-- The revocation-notice DM was attempted. -/
  dm_attempted : Bool
  /-- The admin-channel summary was sent. -/
  summary_logged : Bool
deriving DecidableEq, Repr

/-- The all-false effect record (nothing happened). -/
def noRemovalEffects : RemovalEffects :=
  ⟨false, false, false, false, false, false, false, false, false, false⟩

/-- Effects when the phrase heuristic fails: only the admin-channel
warning, nothing else (in particular no `pinfo` re-check). -/
def heuristicStopEffects : RemovalEffects :=
  { noRemovalEffects with heuristic_failure_logged := true }

/-- Effects when the heuristic succeeds: `await asyncio.sleep(2)`
raises `NameError` (no module-scope `asyncio`), the blanket
`except Exception` logs the error to the admin channel, and the
function returns — no `pinfo` re-check, no mutation. -/
def nameErrorEffects : RemovalEffects :=
  { noRemovalEffects with exception_logged := true }

/-- `_remove_privileges_for_warnings(user, guild, reason)` transcribed
over its external inputs: no active privilege → return; no
`removegroup` answer → log error, return; heuristic
(`parse_removegroup_response`) failure → log, return; heuristic
success → the very next statement, `await asyncio.sleep(2)`
(line 157), raises `NameError` because `asyncio` is only imported
inside `setup()` (a function-local binding, line 231) and never at
module scope, so the `except Exception` handler at line 210 logs the
error to the admin channel and the function returns.  The `pinfo`
re-query and every local mutation written below line 157 (role
removal, privilege/warning deletion, DM, summary) are unreachable on
every path. -/
def remove_privileges_for_warnings (env : RemovalEnv) : RemovalEffects :=
  match env.privilege with
  | none => noRemovalEffects
  | some _ =>
    match env.removegroup_response with
    | none => { noRemovalEffects with rcon_error_logged := true }
    | some resp =>
      if !(parse_removegroup_response resp) then
        heuristicStopEffects
      else
        nameErrorEffects

/-! ## `src/tasks/scheduler.py` — expiry verification and processing -/

/-- One verification attempt "fails" when no `pinfo` answer arrives or
the parsed answer still reports privileges including the group
(the source returns `True` — verified — when `has_privileges` is false
or the group is absent from the parsed list). -/
def schedAttemptVerified (db : List String) (group_name : String) :
    Option String → Bool
  | none => false
  | some r =>
    let data := parse_pinfo_response db r
    if !data.has_privileges then true
    else !(data.groups.any (fun g => lowerEq g.name group_name))

/-- The retry loop of `_verify_group_removed`, attempts indexed from
`i`, `fuel` attempts remaining; returns `True` on the first verified
attempt and `False` when the budget is exhausted. -/
def verifyFrom (db : List String) (group_name : String)
    (responses : Nat → Option String) : Nat → Nat → Bool
  | _, 0 => false
  | i, fuel + 1 =>
    if schedAttemptVerified db group_name (responses i) then true
    else verifyFrom db group_name responses (i + 1) fuel

/-- `_verify_group_removed(steamid, group_name, max_retries)`:
`responses i` is the `pinfo` answer obtained on attempt `i`. -/
def verify_group_removed (db : List String) (group_name : String)
    (responses : Nat → Option String) (max_retries : Nat) : Bool :=
  verifyFrom db group_name responses 0 max_retries

/-- External inputs of `_process_expired_privilege` for one record. -/
structure SchedEnv where
  /-- `pinfo` answer per verification attempt. -/
  responses : Nat → Option String
  /-- `bot.fetch_user(discord_id)` succeeded. -/
  user_found : Bool

/-- The local side effects of processing one expired-privilege row. -/
structure SchedEffects where
  /-- `_remove_discord_role` was invoked (role removal attempted). -/
  role_removal_attempted : Bool
  /-- `db.delete_privilege(privilege_id)` ran. -/
  privilege_deleted : Bool
  /-- `_send_notifications` ran (DM + admin-channel summary). -/
  notification_sent : Bool
deriving DecidableEq, Repr

/-- `_process_expired_privilege(privilege)`: verify with the retry
budget; on failure log and return with no effects; on success remove
the Discord role (if the user resolves), delete the privilege row, and
send the notifications (if the user resolves). -/
def process_expired_privilege (db : List String) (priv : PrivilegeRow)
    (env : SchedEnv) (max_retries : Nat) : SchedEffects :=
  if !(verify_group_removed db priv.group_name env.responses max_retries) then
    ⟨false, false, false⟩
  else
    ⟨env.user_found, true, env.user_found⟩

/-! ## `src/rcon/webrcon_client.py` — reader dispatch and identifiers -/

/-- One inbound WebSocket frame as the listener reads it:
`response.get("Type")`, `response.get("Identifier")`,
`response.get("Message", "")`. -/
structure RconFrame where
  msgType : Option Int
  identifier : Option Int
  message : String
deriving DecidableEq, Repr

/-- Listener-visible state: identifiers with an unresolved pending
future, resolutions performed (in order), console deliveries (in
order), and whether a console callback is registered. -/
structure ListenerState where
  waiting : List Int
  resolved : List (Int × String)
  console : List String
  hasCallback : Bool
deriving DecidableEq, Repr

/-- One iteration of `_console_listener_loop` on one parsed frame:
`Type == 3` goes to the console callback (when registered and the
message is non-empty — both Python-truthiness tests) and never touches
the pending table; otherwise a truthy `Identifier` present in the
pending table pops that future and resolves it with the message body;
anything else is dropped. -/
def listener_step (st : ListenerState) (f : RconFrame) : ListenerState :=
  if f.msgType = some 3 then
    if st.hasCallback && !f.message.isEmpty then
      { st with console := st.console ++ [f.message] }
    else st
  else
    match f.identifier with
    | some id =>
      if id ≠ 0 && st.waiting.contains id then
        { st with
            waiting := st.waiting.erase id
            resolved := st.resolved ++ [(id, f.message)] }
      else st
    | none => st

/-- `send_command`'s identifier allocation:
`self.identifier += 1; cmd_id = self.identifier` — returns the new
counter and the allocated id. -/
def allocate_identifier (counter : Nat) : Nat × Nat :=
  (counter + 1, counter + 1)

/-! ## Concrete scenario inputs used by the claim theorems -/

/-- A representative active-privilege row for the group `moder`. -/
def privModer : PrivilegeRow :=
  ⟨1, 10, "76561198000000000", "moder", none, false⟩

/-- Revocation-flow inputs: a `removegroup` answer arrived but matches
no success phrase. -/
def envHeuristicFailure : RemovalEnv :=
  ⟨some privModer, some "Group does not exist"⟩

/-- Revocation-flow inputs: a `removegroup` answer arrived that the
heuristic accepts (`removed`). -/
def envHeuristicSuccess : RemovalEnv :=
  ⟨some privModer, some "removed"⟩

/-- A `pinfo` response that contains the spec's "no player" phrase in
its exact casing and also a parseable timed group line. -/
def pinfoNoPlayerPlusGroup : String :=
  "No player found\nVipGroup until Monday, 05 January 2026 14:30 UTC"

/-! # Theorems settling the claims -/

/-! ## Shared helper lemmas -/

/-- Python's ASCII lower-case map never produces an upper-case letter;
in particular no character lower-cases to `N`. -/
theorem toLower_ne_upperN (c : Char) : c.toLower ≠ 'N' := by
  intro h
  have hnat : (Char.toLower c).toNat = 78 := by rw [h]; rfl
  unfold Char.toLower at hnat
  by_cases hc : c.toNat ≥ 65 ∧ c.toNat ≤ 90
  · rw [if_pos hc] at hnat
    have hvalid : (c.toNat + 32).isValidChar := by
      left
      omega
    have hofnat : (Char.ofNat (c.toNat + 32)).toNat = c.toNat + 32 := by
      simp only [Char.ofNat, dif_pos hvalid]
      rfl
    rw [hofnat] at hnat
    omega
  · rw [if_neg hc] at hnat
    exact hc ⟨by omega, by omega⟩

/-- A needle whose first character is absent from the haystack is not a
substring. -/
theorem hasSubstr_eq_false_of_head_notMem (hay : List Char) (c : Char)
    (rest : List Char) (h : c ∉ hay) : hasSubstr hay (c :: rest) = false := by
  induction hay with
  | nil => rfl
  | cons x t ih =>
    have hxc : (c == x) = false := by
      simp only [beq_eq_false_iff_ne]
      intro he; exact h (he ▸ List.mem_cons_self x t)
    have hpre : ((c :: rest).isPrefixOf (x :: t)) = false := by
      simp [List.isPrefixOf, hxc]
    rw [hasSubstr, hpre]
    simp only [Bool.false_eq_true, if_false]
    exact ih (fun hm => h (List.mem_cons_of_mem x hm))

/-- Counting after an insert: the warning count for the inserted
`(user, category)` pair goes up by exactly one. -/
theorem get_warnings_count_create (db : WarnDb) (t e : Nat) (r : String)
    (c : Nat) :
    get_warnings_count (create_warning db t e r c) t c =
      get_warnings_count db t c + 1 := by
  simp [get_warnings_count, create_warning, List.filter_append]

/-- Membership in the first-occurrence de-duplication. -/
theorem mem_dedupFirstAux (x : Int) :
    ∀ (l : List Int) (seen : List Int),
      x ∈ dedupFirstAux seen l ↔ (x ∈ l ∧ x ∉ seen) := by
  intro l
  induction l with
  | nil => intro seen; simp [dedupFirstAux]
  | cons y t ih =>
    intro seen
    by_cases hy : seen.contains y
    · rw [dedupFirstAux, if_pos hy, ih]
      have hys : y ∈ seen := by simpa using hy
      constructor
      · rintro ⟨h1, h2⟩; exact ⟨List.mem_cons_of_mem y h1, h2⟩
      · rintro ⟨h1, h2⟩
        rcases List.mem_cons.mp h1 with h | h
        · exact absurd (h ▸ hys) h2
        · exact ⟨h, h2⟩
    · rw [dedupFirstAux, if_neg hy]
      have hys : y ∉ seen := by simpa using hy
      rw [List.mem_cons, ih]
      constructor
      · rintro (h | ⟨h1, h2⟩)
        · exact ⟨h ▸ List.mem_cons_self y t, h ▸ hys⟩
        · exact ⟨List.mem_cons_of_mem y h1, fun hm => h2 (List.mem_cons_of_mem y hm)⟩
      · rintro ⟨h1, h2⟩
        rcases List.mem_cons.mp h1 with h | h
        · exact Or.inl h
        · by_cases hxy : x = y
          · exact Or.inl hxy
          · exact Or.inr ⟨h, fun hm => by
              rcases List.mem_cons.mp hm with h' | h'
              · exact hxy h'
              · exact h2 h'⟩

/-- The first-occurrence de-duplication keeps a subsequence. -/
theorem dedupFirstAux_sublist :
    ∀ (l : List Int) (seen : List Int), (dedupFirstAux seen l).Sublist l := by
  intro l
  induction l with
  | nil => intro seen; simp [dedupFirstAux]
  | cons y t ih =>
    intro seen
    by_cases hy : seen.contains y
    · rw [dedupFirstAux, if_pos hy]
      exact (ih seen).cons y
    · rw [dedupFirstAux, if_neg hy]
      exact (ih (y :: seen)).cons₂ y

/-- The first-occurrence de-duplication yields no duplicates. -/
theorem dedupFirstAux_nodup :
    ∀ (l : List Int) (seen : List Int), (dedupFirstAux seen l).Nodup := by
  intro l
  induction l with
  | nil => intro seen; simp [dedupFirstAux]
  | cons y t ih =>
    intro seen
    by_cases hy : seen.contains y
    · rw [dedupFirstAux, if_pos hy]; exact ih seen
    · rw [dedupFirstAux, if_neg hy]
      refine List.nodup_cons.mpr ⟨fun hm => ?_, ih (y :: seen)⟩
      exact ((mem_dedupFirstAux y t (y :: seen)).mp hm).2 (List.mem_cons_self y seen)

/-! ## Claim C8 -/

/-- Claim C8 (code bug in the code, the claim matches the code's own
docstring): the validator built on `re.match(r'^\d{17}$', ...)` accepts
the 18-character string of 17 digits followed by a newline, because
Python's `$` also matches immediately before a single trailing newline
— so "every other string is rejected" fails; the claim's three listed
rejection examples and the 17-digit acceptance example do hold. -/
theorem C8_steamid_validator :
    is_valid_steamid64 "76561198000000000\n" = true ∧
    ("76561198000000000\n".data.all isPyDigit) = false ∧
    "76561198000000000\n".data.length ≠ 17 ∧
    is_valid_steamid64 "76561198000000000" = true ∧
    is_valid_steamid64 "123" = false ∧
    is_valid_steamid64 "abc12345678901234" = false ∧
    is_valid_steamid64 "123456789012345678" = false := by
  refine ⟨by decide, by decide, by decide, by decide, by decide, by decide, by decide⟩

/-! ## Claim C9 -/

/-- Claim C9: the candidate-port list is the base port and its ±2/±10
neighbours in that order, filtered to 1–65535 and de-duplicated keeping
first occurrences; 28016 yields exactly
`[28016, 28014, 28018, 28006, 28026]` and base port 5 drops the `-10`
candidate. -/
theorem C9_candidate_ports :
    ports_to_try true 28016 = [28016, 28014, 28018, 28006, 28026] ∧
    ports_to_try true 5 = [5, 3, 7, 15] ∧
    (∀ b : Int,
      (ports_to_try true b).Nodup ∧
      (ports_to_try true b).Sublist
        (([b, b - 2, b + 2, b - 10, b + 10]).filter
          (fun p => 0 < p && p < 65536)) ∧
      (∀ p : Int, p ∈ ports_to_try true b ↔
        (p ∈ ([b, b - 2, b + 2, b - 10, b + 10]) ∧ 0 < p ∧ p < 65536))) ∧
    (∀ b : Int, ports_to_try false b = [b]) := by
  refine ⟨by decide, by decide, fun b => ⟨?_, ?_, fun p => ?_⟩, fun b => rfl⟩
  · exact dedupFirstAux_nodup _ []
  · exact dedupFirstAux_sublist _ []
  · rw [ports_to_try, if_pos rfl, dedupFirst, mem_dedupFirstAux]
    simp [List.mem_filter, decide_eq_true_eq]

/-! ## Claim C10 -/

/-- Claim C10: the removegroup heuristic returns true for every
non-empty input whose color-stripped lower-cased text contains a
success phrase — in particular the bare substring `removed`, so the
failure report `Player was not removed` is classified as success —
and returns false on empty input. -/
theorem C10_removegroup_heuristic :
    (∀ r : String, r.data ≠ [] →
      hasSubstr (pyLower (remove_color_tags r).data) "removed".data = true →
      parse_removegroup_response r = true) ∧
    (∀ r : String, r.data ≠ [] →
      (removegroup_success_phrases.any
        (fun p => hasSubstr (pyLower (remove_color_tags r).data) p.data)) = true →
      parse_removegroup_response r = true) ∧
    parse_removegroup_response "Player was not removed" = true ∧
    (∀ r : String, r.data = [] → parse_removegroup_response r = false) := by
  refine ⟨fun r hr h => ?_, fun r hr h => ?_, by decide, fun r hr => ?_⟩
  · rw [parse_removegroup_response, if_neg (by simp [List.isEmpty_iff, hr])]
    exact List.any_eq_true.mpr ⟨"removed", by simp [removegroup_success_phrases], h⟩
  · rw [parse_removegroup_response, if_neg (by simp [List.isEmpty_iff, hr])]
    exact h
  · rw [parse_removegroup_response, if_pos (by simp [List.isEmpty_iff, hr])]

/-- Witness for C10: the theorem applied at the concrete failure report
`Player was not removed`. -/
theorem C10_removegroup_heuristic_witness :
    parse_removegroup_response "Player was not removed" = true :=
  C10_removegroup_heuristic.1 "Player was not removed" (by decide) (by decide)

/-! ## Claim C3 -/

/-- Claim C3: a warn invocation initiates the revocation flow exactly
when the post-insert warning count for the user's category (always the
recruitment track) reaches or exceeds the category's limit; with the
default recruitment limit 3, the third warning triggers it and the
second does not. -/
theorem C3_warn_threshold :
    (∀ (limR limD : Nat) (db : WarnDb) (t e : Nat) (r : String),
      (warn limR limD db t e r).revocation_initiated = true ↔
        get_warnings_count db t 0 + 1 ≥ limR) ∧
    (∀ (limR limD : Nat) (db : WarnDb) (t e : Nat) (r : String),
      (warn limR limD db t e r).warnings_count =
        get_warnings_count db t 0 + 1) ∧
    (∀ (db : WarnDb) (t e : Nat) (r : String),
      get_warnings_count db t 0 = 2 →
      (warn PUNISHMENT_LIMIT_RECRUITMENT PUNISHMENT_LIMIT_DONAT
          db t e r).revocation_initiated = true) ∧
    (∀ (db : WarnDb) (t e : Nat) (r : String),
      get_warnings_count db t 0 = 1 →
      (warn PUNISHMENT_LIMIT_RECRUITMENT PUNISHMENT_LIMIT_DONAT
          db t e r).revocation_initiated = false) := by
  have hcnt : ∀ (db : WarnDb) (t e : Nat) (r : String),
      get_warnings_count (create_warning db t e r 0) t 0 =
        get_warnings_count db t 0 + 1 :=
    fun db t e r => get_warnings_count_create db t e r 0
  refine ⟨fun limR limD db t e r => ?_, fun limR limD db t e r => ?_,
    fun db t e r h => ?_, fun db t e r h => ?_⟩
  · simp [warn, get_user_category, hcnt db t e r, decide_eq_true_eq]
  · simp [warn, get_user_category, hcnt db t e r]
  · simp [warn, get_user_category, hcnt db t e r, h, PUNISHMENT_LIMIT_RECRUITMENT]
  · simp [warn, get_user_category, hcnt db t e r, h, PUNISHMENT_LIMIT_RECRUITMENT]

/-- Witness for C3: with two prior recruitment-track warnings on
record the next warning (the third) initiates revocation; with one
prior warning (the second) it does not. -/
theorem C3_warn_threshold_witness :
    (warn PUNISHMENT_LIMIT_RECRUITMENT PUNISHMENT_LIMIT_DONAT
      ⟨[⟨1, 9, "a", 0⟩, ⟨1, 9, "b", 0⟩]⟩ 1 9 "c").revocation_initiated = true ∧
    (warn PUNISHMENT_LIMIT_RECRUITMENT PUNISHMENT_LIMIT_DONAT
      ⟨[⟨1, 9, "a", 0⟩]⟩ 1 9 "c").revocation_initiated = false :=
  ⟨C3_warn_threshold.2.2.1 ⟨[⟨1, 9, "a", 0⟩, ⟨1, 9, "b", 0⟩]⟩ 1 9 "c" (by decide),
   C3_warn_threshold.2.2.2 ⟨[⟨1, 9, "a", 0⟩]⟩ 1 9 "c" (by decide)⟩

/-! ## Claim C1 -/

/-- Evaluation: no active privilege — nothing at all happens. -/
theorem rpfw_no_priv (rg : Option String) :
    remove_privileges_for_warnings ⟨none, rg⟩ = noRemovalEffects := rfl

/-- Evaluation: no `removegroup` answer — only the error log. -/
theorem rpfw_no_answer (p : PrivilegeRow) :
    remove_privileges_for_warnings ⟨some p, none⟩ =
      { noRemovalEffects with rcon_error_logged := true } := rfl

/-- Evaluation: heuristic failure — log and stop. -/
theorem rpfw_heur_fail (p : PrivilegeRow) (r : String)
    (h : parse_removegroup_response r = false) :
    remove_privileges_for_warnings ⟨some p, some r⟩ =
      heuristicStopEffects := by
  simp [remove_privileges_for_warnings, h]

/-- Evaluation: heuristic success — the `NameError` at line 157 aborts
into the exception handler; only the error log happens. -/
theorem rpfw_heur_success (p : PrivilegeRow) (r : String)
    (h : parse_removegroup_response r = true) :
    remove_privileges_for_warnings ⟨some p, some r⟩ =
      nameErrorEffects := by
  simp [remove_privileges_for_warnings, h]

/-- Claim C1: in every execution of the warning-triggered revocation
flow, none of the local mutations (role removal, privilege-row and
warning-row deletion, the DM, the summary) occur, and the `pinfo`
re-query is never even issued — so the claim's property, "the local
side effects are performed only in executions where the re-query
confirmed the group's absence, and in every unconfirmed execution none
of them occur", holds, vacuously: the heuristic-success path raises
`NameError` at `await asyncio.sleep(2)` (no module-scope `asyncio`)
one line before the re-query and aborts into the exception handler,
and every other path returns earlier. -/
theorem C1_no_unconfirmed_mutations :
    ∀ env : RemovalEnv,
      (remove_privileges_for_warnings env).role_removed = false ∧
      (remove_privileges_for_warnings env).privileges_deleted = false ∧
      (remove_privileges_for_warnings env).warnings_deleted = false ∧
      (remove_privileges_for_warnings env).dm_attempted = false ∧
      (remove_privileges_for_warnings env).summary_logged = false ∧
      (remove_privileges_for_warnings env).pinfo_checked = false := by
  rintro ⟨priv, rg⟩
  cases priv with
  | none => exact ⟨rfl, rfl, rfl, rfl, rfl, rfl⟩
  | some p =>
    cases rg with
    | none => exact ⟨rfl, rfl, rfl, rfl, rfl, rfl⟩
    | some r =>
      cases hpr : parse_removegroup_response r with
      | false =>
        rw [rpfw_heur_fail p r hpr]
        exact ⟨rfl, rfl, rfl, rfl, rfl, rfl⟩
      | true =>
        rw [rpfw_heur_success p r hpr]
        exact ⟨rfl, rfl, rfl, rfl, rfl, rfl⟩

/-! ## Claim C2 -/

/-- Claim C2 counterexample: when the `removegroup` answer arrives but
the phrase heuristic reports failure, the flow *stops* — the
authoritative `pinfo` re-check is never issued (and nothing is
mutated), contradicting "the flow does not stop". -/
theorem C2_counterexample_heuristic_blocks :
    envHeuristicFailure.removegroup_response = some "Group does not exist" ∧
    parse_removegroup_response "Group does not exist" = false ∧
    (remove_privileges_for_warnings envHeuristicFailure).pinfo_checked =
      false ∧
    remove_privileges_for_warnings envHeuristicFailure =
      { noRemovalEffects with heuristic_failure_logged := true } := by
  exact ⟨rfl, by decide, by decide, by decide⟩

/-- Claim C2 as amended: a heuristic failure on a received
`removegroup` answer makes the flow stop — it logs and returns with
neither the `pinfo` re-check nor any local mutation; and in fact *no*
execution proceeds to the re-check, because a heuristic success raises
`NameError` at `await asyncio.sleep(2)` (line 157; `asyncio` is only
imported locally inside `setup()`) and aborts into the exception
handler with only an error log. -/
theorem C2_amended_heuristic_is_gating :
    (∀ (env : RemovalEnv) (p : PrivilegeRow) (r : String),
      env.privilege = some p → env.removegroup_response = some r →
      parse_removegroup_response r = false →
      remove_privileges_for_warnings env =
        { noRemovalEffects with heuristic_failure_logged := true }) ∧
    (∀ (env : RemovalEnv) (p : PrivilegeRow) (r : String),
      env.privilege = some p → env.removegroup_response = some r →
      parse_removegroup_response r = true →
      remove_privileges_for_warnings env = nameErrorEffects) ∧
    (∀ env : RemovalEnv,
      (remove_privileges_for_warnings env).pinfo_checked = false) := by
  refine ⟨?_, ?_, ?_⟩
  · rintro ⟨priv, rg⟩ p r hp hr hpr
    cases hp; cases hr
    exact rpfw_heur_fail p r hpr
  · rintro ⟨priv, rg⟩ p r hp hr hpr
    cases hp; cases hr
    exact rpfw_heur_success p r hpr
  · rintro ⟨priv, rg⟩
    cases priv with
    | none => rfl
    | some p =>
      cases rg with
      | none => rfl
      | some r =>
        cases hpr : parse_removegroup_response r with
        | false => rw [rpfw_heur_fail p r hpr]; rfl
        | true => rw [rpfw_heur_success p r hpr]; rfl

/-- Witness for the amended C2: the concrete heuristic-failure input
produces exactly the logged-and-stopped record, and the concrete
heuristic-success input produces exactly the exception-logged record
(no re-check, no mutation). -/
theorem C2_amended_heuristic_is_gating_witness :
    remove_privileges_for_warnings envHeuristicFailure =
      { noRemovalEffects with heuristic_failure_logged := true } ∧
    remove_privileges_for_warnings envHeuristicSuccess = nameErrorEffects :=
  ⟨C2_amended_heuristic_is_gating.1 envHeuristicFailure privModer
      "Group does not exist" rfl rfl (by decide),
   C2_amended_heuristic_is_gating.2.1 envHeuristicSuccess privModer
      "removed" rfl rfl (by decide)⟩

/-! ## Claim C4 -/

/-- If every attempt in the remaining budget fails (no answer, or the
group still reported present), the verification loop returns false. -/
theorem verifyFrom_eq_false (db : List String) (g : String)
    (responses : Nat → Option String) :
    ∀ (fuel i : Nat),
      (∀ j, j < fuel → schedAttemptVerified db g (responses (i + j)) = false) →
      verifyFrom db g responses i fuel = false := by
  intro fuel
  induction fuel with
  | zero => intro i _; rfl
  | succ n ih =>
    intro i h
    have h0 : schedAttemptVerified db g (responses i) = false := by
      have := h 0 (Nat.succ_pos n)
      simpa using this
    rw [verifyFrom, h0]
    simp only [Bool.false_eq_true, if_false]
    exact ih (i + 1) (fun j hj => by
      have h' := h (j + 1) (Nat.succ_lt_succ hj)
      rwa [show i + (j + 1) = i + 1 + j by omega] at h')

/-- Claim C4: when the group-removal verification fails on every
attempt of the retry budget (the group still reported present, or no
`pinfo` answer received), the scheduler pass leaves everything
unchanged for the record: no role removal, no privilege-row deletion,
no notification. -/
theorem C4_scheduler_leaves_record_untouched :
    ∀ (db : List String) (priv : PrivilegeRow) (env : SchedEnv) (n : Nat),
      (∀ i, i < n →
        schedAttemptVerified db priv.group_name (env.responses i) = false) →
      process_expired_privilege db priv env n = ⟨false, false, false⟩ := by
  intro db priv env n h
  have hv : verify_group_removed db priv.group_name env.responses n = false :=
    verifyFrom_eq_false db priv.group_name env.responses n 0
      (fun j hj => by simpa using h j hj)
  simp [process_expired_privilege, hv]

/-- Witness for C4: with `max_retries = 3` and every attempt answering
`moder` (the group still present), processing the expired `moder`
privilege mutates nothing. -/
theorem C4_scheduler_leaves_record_untouched_witness :
    process_expired_privilege GROUP_NAME_DATABASE privModer
      ⟨fun _ => some "moder", true⟩ MAX_REMOVAL_RETRIES =
      ⟨false, false, false⟩ :=
  C4_scheduler_leaves_record_untouched GROUP_NAME_DATABASE privModer
    ⟨fun _ => some "moder", true⟩ MAX_REMOVAL_RETRIES (fun _ _ => rfl)

/-! ## Claim C5 -/

/-- Claim C5: the reader's dispatch never resolves a pending request
from a `Type == 3` frame (those go only to the console callback, or
are dropped), resolves exactly the matching outstanding request for
any other frame (identifiers are allocated strictly positive, so the
truthiness test cannot mask a real id), and in the concrete 6-then-5
arrival order with an interleaved `Type == 3` broadcast each command
receives its own body. -/
theorem C5_reader_multiplexing :
    (∀ (st : ListenerState) (f : RconFrame), f.msgType = some 3 →
      (listener_step st f).waiting = st.waiting ∧
      (listener_step st f).resolved = st.resolved ∧
      (listener_step st f).console =
        (if st.hasCallback && !f.message.isEmpty
          then st.console ++ [f.message] else st.console)) ∧
    (∀ (st : ListenerState) (f : RconFrame) (id : Int),
      f.msgType ≠ some 3 → f.identifier = some id →
      st.waiting.contains id = true → (∀ j ∈ st.waiting, 0 < j) →
      (listener_step st f).resolved = st.resolved ++ [(id, f.message)] ∧
      (listener_step st f).waiting = st.waiting.erase id ∧
      (listener_step st f).console = st.console) ∧
    (∀ c : Nat, 0 < (allocate_identifier c).2 ∧ c < (allocate_identifier c).2) ∧
    (List.foldl listener_step ⟨[5, 6], [], [], true⟩
        [⟨some 0, some 6, "reply to 6"⟩, ⟨some 3, some 5, "console line"⟩,
         ⟨some 0, some 5, "reply to 5"⟩] =
      ⟨[], [(6, "reply to 6"), (5, "reply to 5")], ["console line"], true⟩) := by
  refine ⟨fun st f h3 => ?_, fun st f id h3 hid hc hpos => ?_,
    fun c => ⟨Nat.succ_pos c, Nat.lt_succ_self c⟩, by decide⟩
  · cases hcb : (st.hasCallback && !f.message.isEmpty) with
    | true => simp [listener_step, h3, hcb]
    | false => simp [listener_step, h3, hcb]
  · have hmem : id ∈ st.waiting := by simpa using hc
    have h0 : id ≠ 0 := by
      have := hpos id hmem
      omega
    simp [listener_step, h3, hid, h0, hc, hmem]

/-- Witness for C5: the dispatch components applied at concrete states
— a `Type == 3` frame leaves the pending table of `[5, 6]` unchanged,
and a `Type == 0` frame for id 6 resolves exactly id 6. -/
theorem C5_reader_multiplexing_witness :
    (listener_step ⟨[5, 6], [], [], true⟩
        ⟨some 3, some 5, "console line"⟩).waiting = [5, 6] ∧
    (listener_step ⟨[5, 6], [], [], true⟩
        ⟨some 0, some 6, "reply to 6"⟩).resolved = [] ++ [(6, "reply to 6")] :=
  ⟨(C5_reader_multiplexing.1 ⟨[5, 6], [], [], true⟩
      ⟨some 3, some 5, "console line"⟩ rfl).1,
   (C5_reader_multiplexing.2.1 ⟨[5, 6], [], [], true⟩
      ⟨some 0, some 6, "reply to 6"⟩ 6 (by decide) rfl (by decide)
      (by decide)).1⟩

/-! ## Claim C6 -/

/-- Claim C6 counterexample: an input containing the phrase
`No player found` — in the spec's exact casing, hence in particular
case-insensitively — together with a parseable timed group line is
*not* short-circuited: the parser returns `has_privileges = true` with
a non-empty group list, because the source tests the mixed-case needle
`'No player found'` against the lower-cased text (which can never
match) and tests the other phrase case-sensitively. -/
theorem C6_counterexample_no_player_phrase :
    hasSubstr (pyLower pinfoNoPlayerPlusGroup.data)
      (pyLower "No player found".data) = true ∧
    (parse_pinfo_response GROUP_NAME_DATABASE
      pinfoNoPlayerPlusGroup).has_privileges = true ∧
    (parse_pinfo_response GROUP_NAME_DATABASE
      pinfoNoPlayerPlusGroup).groups ≠ [] := by
  refine ⟨by decide, by decide, by decide⟩

/-- Claim C6 as amended: absent/empty input yields no privileges and
an empty group list, as does input whose color-stripped text contains
the exact-case sentence `There is no info about this player`; but the
`No player found` test compares a mixed-case needle against the
lower-cased text and can never match any input, so such responses fall
through to the normal group scan. -/
theorem C6_amended_no_player_detection :
    (∀ db : List String,
      (parse_pinfo_response db "").has_privileges = false ∧
      (parse_pinfo_response db "").groups = []) ∧
    (∀ (db : List String) (r : String),
      hasSubstr (remove_color_tags r).data
        "There is no info about this player".data = true →
      (parse_pinfo_response db r).has_privileges = false ∧
      (parse_pinfo_response db r).groups = []) ∧
    (∀ l : List Char, hasSubstr (pyLower l) "No player found".data = false) := by
  refine ⟨fun db => ⟨rfl, rfl⟩, fun db r h => ?_, fun l => ?_⟩
  · cases hre : r.data.isEmpty with
    | true => simp [parse_pinfo_response, hre]
    | false => simp [parse_pinfo_response, hre, h]
  · have hmem : 'N' ∉ pyLower l := by
      intro hm
      rcases List.mem_map.mp hm with ⟨c, _, hc⟩
      exact toLower_ne_upperN c hc
    have hdata : "No player found".data = 'N' :: "o player found".data := rfl
    rw [hdata]
    exact hasSubstr_eq_false_of_head_notMem _ _ _ hmem

/-- Witness for the amended C6: the exact-case sentence is recognized,
and even the exact phrase `No player found` itself does not satisfy the
dead lower-cased test. -/
theorem C6_amended_no_player_detection_witness :
    ((parse_pinfo_response GROUP_NAME_DATABASE
        "There is no info about this player").has_privileges = false ∧
      (parse_pinfo_response GROUP_NAME_DATABASE
        "There is no info about this player").groups = []) ∧
    hasSubstr (pyLower "No player found".data) "No player found".data = false :=
  ⟨C6_amended_no_player_detection.2.1 GROUP_NAME_DATABASE
      "There is no info about this player" (by decide),
   C6_amended_no_player_detection.2.2 "No player found".data⟩

/-! ## Claim C7 -/

/-- `list.index` returns an index inside the list. -/
theorem pyIndex_lt_length :
    ∀ (l : List String) (x : String) (i : Nat),
      pyIndex l x = some i → i < l.length := by
  intro l
  induction l with
  | nil => intro x i h; exact Option.noConfusion h
  | cons h t ih =>
    intro x i hx
    rw [pyIndex] at hx
    by_cases he : h = x
    · rw [if_pos he] at hx
      cases hx
      exact Nat.succ_pos t.length
    · rw [if_neg he] at hx
      cases hpy : pyIndex t x with
      | none => rw [hpy] at hx; exact Option.noConfusion hx
      | some j =>
        rw [hpy] at hx
        cases hx
        exact Nat.succ_lt_succ (ih x j hpy)

/-- The running minimum never exceeds its starting value. -/
theorem minHierIdx_le (hier : List String) :
    ∀ (l : List PInfoGroup) (b : Nat), minHierIdx hier b l ≤ b := by
  intro l
  induction l with
  | nil => intro b; exact Nat.le_refl b
  | cons x t ih =>
    intro b
    cases hx : hierIdx hier x with
    | none =>
      have : minHierIdx hier b (x :: t) = minHierIdx hier b t := by
        simp [minHierIdx, hx]
      rw [this]; exact ih b
    | some p =>
      have : minHierIdx hier b (x :: t) = minHierIdx hier (Nat.min b p) t := by
        simp [minHierIdx, hx]
      rw [this]
      exact Nat.le_trans (ih (Nat.min b p)) (Nat.min_le_left b p)

/-- The running minimum is a lower bound for every ranked member. -/
theorem minHierIdx_le_mem (hier : List String) :
    ∀ (l : List PInfoGroup) (b : Nat) (g : PInfoGroup) (k : Nat),
      g ∈ l → hierIdx hier g = some k → minHierIdx hier b l ≤ k := by
  intro l
  induction l with
  | nil => intro b g k hg; exact absurd hg (List.not_mem_nil g)
  | cons x t ih =>
    intro b g k hg hk
    rcases List.mem_cons.mp hg with rfl | hg'
    · have : minHierIdx hier b (g :: t) = minHierIdx hier (Nat.min b k) t := by
        simp [minHierIdx, hk]
      rw [this]
      exact Nat.le_trans (minHierIdx_le hier t (Nat.min b k)) (Nat.min_le_right b k)
    · cases hx : hierIdx hier x with
      | none =>
        have : minHierIdx hier b (x :: t) = minHierIdx hier b t := by
          simp [minHierIdx, hx]
        rw [this]; exact ih b g k hg' hk
      | some p =>
        have : minHierIdx hier b (x :: t) = minHierIdx hier (Nat.min b p) t := by
          simp [minHierIdx, hx]
        rw [this]; exact ih (Nat.min b p) g k hg' hk

/-- The running minimum is either untouched or attained by a member. -/
theorem minHierIdx_attained (hier : List String) :
    ∀ (l : List PInfoGroup) (b : Nat),
      minHierIdx hier b l = b ∨
        ∃ g ∈ l, hierIdx hier g = some (minHierIdx hier b l) := by
  intro l
  induction l with
  | nil => intro b; exact Or.inl rfl
  | cons x t ih =>
    intro b
    cases hx : hierIdx hier x with
    | none =>
      have heq : minHierIdx hier b (x :: t) = minHierIdx hier b t := by
        simp [minHierIdx, hx]
      rcases ih b with h | ⟨g, hg, hgi⟩
      · exact Or.inl (heq.trans h)
      · exact Or.inr ⟨g, List.mem_cons_of_mem x hg, by rw [heq]; exact hgi⟩
    | some p =>
      have heq : minHierIdx hier b (x :: t) = minHierIdx hier (Nat.min b p) t := by
        simp [minHierIdx, hx]
      rcases ih (Nat.min b p) with h | ⟨g, hg, hgi⟩
      · by_cases hbp : b ≤ p
        · have : Nat.min b p = b := Nat.min_eq_left hbp
          exact Or.inl (by rw [heq, h, this])
        · have hmin : Nat.min b p = p := Nat.min_eq_right (Nat.le_of_not_le hbp)
          refine Or.inr ⟨x, List.mem_cons_self x t, ?_⟩
          rw [heq, h, hmin, hx]
      · exact Or.inr ⟨g, List.mem_cons_of_mem x hg, by rw [heq]; exact hgi⟩

/-- The selection fold of `select_highest_group`, characterized: it
returns the start value when no member improves on the start bound,
and otherwise the first member attaining the running minimum. -/
theorem selFold_eq (hier : List String) :
    ∀ (l : List PInfoGroup) (g0 : Option PInfoGroup) (b : Nat),
      l.foldl (selStep hier) (g0, b) =
        (if minHierIdx hier b l = b then g0
         else l.find? (fun g => hierIdx hier g == some (minHierIdx hier b l)),
         minHierIdx hier b l) := by
  intro l
  induction l with
  | nil => intro g0 b; simp [minHierIdx]
  | cons x t ih =>
    intro g0 b
    rw [List.foldl_cons]
    cases hx : hierIdx hier x with
    | none =>
      have hstep : selStep hier (g0, b) x = (g0, b) := by simp [selStep, hx]
      have hmin : minHierIdx hier b (x :: t) = minHierIdx hier b t := by
        simp [minHierIdx, hx]
      rw [hstep, ih, hmin]
      by_cases hm : minHierIdx hier b t = b
      · rw [if_pos hm, if_pos hm]
      · rw [if_neg hm, if_neg hm, List.find?_cons]
        have : (hierIdx hier x == some (minHierIdx hier b t)) = false := by
          simp [hx]
        rw [this]
    | some p =>
      by_cases hpb : p < b
      · have hstep : selStep hier (g0, b) x = (some x, p) := by
          simp [selStep, hx, hpb]
        have hminb : minHierIdx hier b (x :: t) = minHierIdx hier p t := by
          simp [minHierIdx, hx, Nat.min_eq_right (Nat.le_of_lt hpb)]
        have hle : minHierIdx hier p t ≤ p := minHierIdx_le hier t p
        rw [hstep, ih, hminb]
        by_cases hmp : minHierIdx hier p t = p
        · have hne : ¬(minHierIdx hier p t = b) := by omega
          rw [if_pos hmp, if_neg hne, List.find?_cons]
          have : (hierIdx hier x == some (minHierIdx hier p t)) = true := by
            simp [hx, hmp]
          rw [this]
        · have hne : ¬(minHierIdx hier p t = b) := by omega
          rw [if_neg hmp, if_neg hne, List.find?_cons]
          have : (hierIdx hier x == some (minHierIdx hier p t)) = false := by
            simp [hx]
            omega
          rw [this]
      · have hstep : selStep hier (g0, b) x = (g0, b) := by
          simp [selStep, hx, hpb]
        have hminb : minHierIdx hier b (x :: t) = minHierIdx hier b t := by
          simp [minHierIdx, hx, Nat.min_eq_left (Nat.le_of_not_lt hpb)]
        have hle : minHierIdx hier b t ≤ b := minHierIdx_le hier t b
        rw [hstep, ih, hminb]
        by_cases hm : minHierIdx hier b t = b
        · rw [if_pos hm, if_pos hm]
        · rw [if_neg hm, if_neg hm, List.find?_cons]
          have : (hierIdx hier x == some (minHierIdx hier b t)) = false := by
            simp [hx]
            omega
          rw [this]

/-- Claim C7: `select_highest_group` coincides with its specification
reading — filter to the case-insensitive allow-list, return the first
group attaining the lowest hierarchy index, absent when no group is in
both lists — together with the spec's two concrete examples. -/
theorem C7_select_highest_group :
    (∀ (db hier : List String) (groups : List PInfoGroup),
      select_highest_group db hier groups =
        spec_select_highest_group db hier groups) ∧
    (∀ (db hier : List String) (groups : List PInfoGroup),
      (select_highest_group db hier groups = none ↔
        ∀ g ∈ groups, groupAllowed db g = false ∨ hierIdx hier g = none)) ∧
    (select_highest_group GROUP_NAME_DATABASE ["owner", "admin", "moderator"]
        [⟨"moderator", none, true⟩, ⟨"admin", none, true⟩] =
      some ⟨"admin", none, true⟩) ∧
    (select_highest_group GROUP_NAME_DATABASE GROUP_HIERARCHY
        [⟨"unknowngrp", none, true⟩] = none) := by
  have key : ∀ (db hier : List String) (groups : List PInfoGroup),
      select_highest_group db hier groups =
        spec_select_highest_group db hier groups := by
    intro db hier groups
    rw [select_highest_group, spec_select_highest_group]
    by_cases hg : groups.isEmpty
    · have : groups = [] := by simpa [List.isEmpty_iff] using hg
      subst this
      simp [minHierIdx]
    · rw [if_neg (by simpa using hg)]
      by_cases hv : (groups.filter (groupAllowed db)).isEmpty
      · have hnil : groups.filter (groupAllowed db) = [] := by
          simpa [List.isEmpty_iff] using hv
        rw [if_pos (by simpa using hv)]
        simp [hnil]
      · rw [if_neg (by simpa using hv), selFold_eq]
        by_cases hm : minHierIdx hier hier.length
            (groups.filter (groupAllowed db)) = hier.length
        · rw [if_pos hm]
          symm
          rw [List.find?_eq_none]
          intro g _ hbeq
          have hgi : hierIdx hier g =
              some (minHierIdx hier hier.length
                (groups.filter (groupAllowed db))) := by
            simpa using hbeq
          have := pyIndex_lt_length hier _ _ (hm ▸ hgi)
          omega
        · rw [if_neg hm]
  refine ⟨key, fun db hier groups => ?_, by decide, by decide⟩
  rw [key, spec_select_highest_group]
  constructor
  · intro hnone g hg
    by_cases ha : groupAllowed db g = true
    · right
      cases hk : hierIdx hier g with
      | none => rfl
      | some k =>
        exfalso
        have hgv : g ∈ groups.filter (groupAllowed db) :=
          List.mem_filter.mpr ⟨hg, ha⟩
        have hle :
            minHierIdx hier hier.length (groups.filter (groupAllowed db)) ≤ k :=
          minHierIdx_le_mem hier _ hier.length g k hgv hk
        have hklt : k < hier.length := pyIndex_lt_length hier _ k hk
        rcases minHierIdx_attained hier (groups.filter (groupAllowed db))
            hier.length with hb | ⟨g', hg', hgi'⟩
        · omega
        · have := List.find?_eq_none.mp hnone g' hg'
          simp [hgi'] at this
    · exact Or.inl (Bool.eq_false_iff.mpr ha)
  · intro hall
    rw [List.find?_eq_none]
    intro g hgv hbeq
    have hmem := List.mem_filter.mp hgv
    rcases hall g hmem.1 with hfa | hnone'
    · rw [hmem.2] at hfa
      exact Bool.noConfusion hfa
    · rw [hnone'] at hbeq
      simp at hbeq

/-- Witness for C7: the characterization applied to the spec's example
inputs — hierarchy `[owner, admin, moderator]` with parsed groups
`[moderator, admin]` selects `admin`, and an unrecognized group name
selects nothing. -/
theorem C7_select_highest_group_witness :
    select_highest_group GROUP_NAME_DATABASE ["owner", "admin", "moderator"]
        [⟨"moderator", none, true⟩, ⟨"admin", none, true⟩] =
      some ⟨"admin", none, true⟩ ∧
    (select_highest_group GROUP_NAME_DATABASE GROUP_HIERARCHY
        [⟨"unknowngrp", none, true⟩] = none) :=
  ⟨C7_select_highest_group.2.2.1,
   (C7_select_highest_group.2.1 GROUP_NAME_DATABASE GROUP_HIERARCHY
      [⟨"unknowngrp", none, true⟩]).mpr (by decide)⟩

end Bot
